import Mathlib

/-!
Verification development for the QR Live Protocol repository (qr_live_protocol).

The Python sources are shallowly embedded: pure functions become Lean
functions, stateful methods become explicit state-passing functions, and
calls into the standard library or the network are abstracted as
environment records whose fields hold the values those calls would return.
JSON texts are modelled by their parse trees (the `Json` type below): the
Python `json.loads`/`json.dumps` pair is exact on such trees, so a string
input is represented by the result of `json.loads` on it (`Except String
Json`, the error case being a `json.JSONDecodeError`).  Machine floats are
modelled as rationals.  Python exceptions that the embedded code does not
catch are surfaced in an `Except PyExc` result.
-/

namespace QRLP

/-- Model of a parsed JSON value: the result of Python `json.loads`. -/
inductive Json where
  | null
  | bool (b : Bool)
  | num (q : ℚ)
  | str (s : String)
  | arr (elems : List Json)
  | obj (fields : List (String × Json))

/-- `d.get(k)` on a Python dict modelled as an association list with unique
keys (lookup of the first matching key). -/
def dictGet? {α : Type} (l : List (String × α)) (k : String) : Option α :=
  (l.find? (fun kv => kv.1 = k)).map (·.2)

/-- `d[k] = v` on a Python dict: replace the value in place if the key is
present (insertion order kept), otherwise append the new binding. -/
def dictSet {α : Type} (l : List (String × α)) (k : String) (v : α) : List (String × α) :=
  if l.any (fun kv => kv.1 = k) then
    l.map (fun kv => if kv.1 = k then (k, v) else kv)
  else
    l ++ [(k, v)]

/-- Python truthiness of a parsed JSON value (`if x:`). -/
def Json.truthy : Json → Bool
  | .null => false
  | .bool b => b
  | .num q => q ≠ 0
  | .str s => s ≠ ""
  | .arr xs => !xs.isEmpty
  | .obj kvs => !kvs.isEmpty

/-- Python `==` between a parsed JSON value and a `str`. -/
def Json.eqStr : Json → String → Bool
  | .str s, e => s = e
  | _, _ => false

/-- Python exceptions that `QRLiveProtocol.verify_qr_data` leaves uncaught
(its `except` clause lists only `json.JSONDecodeError`, `ValueError` and
`KeyError`). -/
inductive PyExc where
  | typeError
  | attributeError
deriving Repr, DecidableEq

/-- The `QRData` dataclass of `src/core.py`.  Python does not enforce the
field annotations, so a field holds whatever parsed JSON value
`QRData.from_json` received for it; defaults mirror `user_data = None` and
`sequence_number = 0`. -/
structure QRData where
  timestamp : Json
  identity_hash : Json
  blockchain_hashes : Json
  time_server_verification : Json
  user_data : Json := Json.null
  sequence_number : Json := Json.num 0

/-- The two required positional fields plus the two defaulted fields of the
`QRData` dataclass constructor. -/
def QRData.requiredKeys : List String :=
  ["timestamp", "identity_hash", "blockchain_hashes", "time_server_verification"]

/-- All keyword arguments `QRData(**data)` accepts. -/
def QRData.allowedKeys : List String :=
  QRData.requiredKeys ++ ["user_data", "sequence_number"]

/-- `QRData.from_json` after `json.loads`: `cls(**data)`.  A non-object
value, an unexpected key, or a missing required key each raise `TypeError`
(which `verify_qr_data` does not catch). -/
def QRData.fromLoaded (j : Json) : Except PyExc QRData :=
  match j with
  | Json.obj kvs =>
      let keys := kvs.map Prod.fst
      if keys.all (fun k => QRData.allowedKeys.contains k) &&
         QRData.requiredKeys.all (fun k => keys.contains k) then
        Except.ok
          { timestamp := (dictGet? kvs "timestamp").getD Json.null
            identity_hash := (dictGet? kvs "identity_hash").getD Json.null
            blockchain_hashes := (dictGet? kvs "blockchain_hashes").getD Json.null
            time_server_verification := (dictGet? kvs "time_server_verification").getD Json.null
            user_data := (dictGet? kvs "user_data").getD Json.null
            sequence_number := (dictGet? kvs "sequence_number").getD (Json.num 0) }
      else
        Except.error PyExc.typeError
  | _ => Except.error PyExc.typeError

/-- One value of the `time_server_verification` map, as built by
`TimeProvider.get_time_server_verification`. -/
structure VerifEntry where
  timestamp : String
  offset : ℚ
  last_sync : ℚ
deriving Repr, DecidableEq

/-- A well-typed proof packet: a `QRData` instance as
`QRLiveProtocol.generate_single_qr` actually builds it, with the field
types the dataclass annotations (and the spec's wire format) prescribe. -/
structure ProofPacket where
  timestamp : String
  identity_hash : String
  blockchain_hashes : List (String × String)
  time_server_verification : List (String × VerifEntry)
  user_data : Option (List (String × Json))
  sequence_number : Nat

/-- JSON form of a verification-map entry. -/
def VerifEntry.toJson (e : VerifEntry) : Json :=
  Json.obj [("timestamp", Json.str e.timestamp), ("offset", Json.num e.offset),
            ("last_sync", Json.num e.last_sync)]

/-- `QRData.to_json` on a well-typed packet, at the parse-tree level:
`json.dumps(asdict(self))` emits the six fields in declaration order, and
`json.loads` of that text gives back exactly this tree. -/
def ProofPacket.toJson (p : ProofPacket) : Json :=
  Json.obj
    [ ("timestamp", Json.str p.timestamp),
      ("identity_hash", Json.str p.identity_hash),
      ("blockchain_hashes", Json.obj (p.blockchain_hashes.map (fun kv => (kv.1, Json.str kv.2)))),
      ("time_server_verification",
        Json.obj (p.time_server_verification.map (fun kv => (kv.1, kv.2.toJson)))),
      ("user_data", match p.user_data with
                    | none => Json.null
                    | some kvs => Json.obj kvs),
      ("sequence_number", Json.num p.sequence_number) ]

/-- The `QRData` dataclass instance holding exactly the field values of a
well-typed packet (the canonical injection of packets into dataclass
instances). -/
def QRData.ofPacket (p : ProofPacket) : QRData :=
  { timestamp := Json.str p.timestamp
    identity_hash := Json.str p.identity_hash
    blockchain_hashes := Json.obj (p.blockchain_hashes.map (fun kv => (kv.1, Json.str kv.2)))
    time_server_verification :=
      Json.obj (p.time_server_verification.map (fun kv => (kv.1, kv.2.toJson)))
    user_data := match p.user_data with
                 | none => Json.null
                 | some kvs => Json.obj kvs
    sequence_number := Json.num p.sequence_number }

/-! ### `QRLiveProtocol.verify_qr_data` -/

/-- Result of `datetime.fromisoformat` on a string: a `ValueError` for a
malformed string, otherwise a timezone-naive or timezone-aware datetime
(modelled by its POSIX timestamp in seconds). -/
inductive IsoParse where
  | err (msg : String)
  | naive (t : ℚ)
  | aware (t : ℚ)

/-- Environment of one `verify_qr_data` call: the values returned by the
collaborator calls it makes and the library functions it uses. -/
structure VerifyEnv where
  /-- `self.identity_manager.get_identity_hash()`. -/
  expected_identity : String
  /-- `self.blockchain_verifier.get_blockchain_hashes()`. -/
  current_hashes : List (String × String)
  /-- `datetime.now(timezone.utc)` as a POSIX timestamp. -/
  now : ℚ
  /-- `self.config.verification_settings.max_time_drift`. -/
  max_time_drift : ℚ
  /-- `datetime.fromisoformat` on string arguments. -/
  fromisoformat : String → IsoParse

/-- The dictionary `verify_qr_data` returns (`error` is present only in the
parse-failure dictionary). -/
structure VerifyResult where
  valid_json : Bool
  identity_verified : Bool
  time_verified : Bool
  blockchain_verified : Bool
  error : Option String := none
deriving Repr, DecidableEq

/-- The `{valid_json: False, error: str(e), ...}` dictionary built in the
`except` clause of `verify_qr_data`. -/
def parseFailure (msg : String) : VerifyResult :=
  { valid_json := false, identity_verified := false, time_verified := false,
    blockchain_verified := false, error := some msg }

/-- Python `==` between `current_hashes.get(chain)` (a `str` or `None`) and
the packet's parsed hash value. -/
def optStrEqJson : Option String → Json → Bool
  | none, Json.null => true
  | none, _ => false
  | some s, Json.str t => s = t
  | some _, _ => false

/-- `QRLiveProtocol.verify_qr_data`.  The input is the result of
`json.loads(qr_json)` (`Except.error` = `json.JSONDecodeError`, which the
method catches).  The output is `Except.error e` when the body raises an
exception that the method's `except (json.JSONDecodeError, ValueError,
KeyError)` clause does not catch: a `TypeError` from `QRData(**data)` on a
non-object or on missing/unexpected keys, a `TypeError` from
`datetime.fromisoformat` on a non-string timestamp, a `TypeError` from
subtracting a timezone-naive timestamp from an aware one, or an
`AttributeError` from `.items()` on a truthy non-dict
`blockchain_hashes`. -/
def verify_qr_data (env : VerifyEnv) (input : Except String Json) :
    Except PyExc VerifyResult :=
  match input with
  | .error msg => .ok (parseFailure msg)
  | .ok j =>
    match QRData.fromLoaded j with
    | .error e => .error e
    | .ok qr_data =>
      match qr_data.timestamp with
      | Json.str ts =>
        match env.fromisoformat ts with
        | .err msg => .ok (parseFailure msg)
        | .naive _ => .error PyExc.typeError
        | .aware t =>
          if qr_data.blockchain_hashes.truthy then
            match qr_data.blockchain_hashes with
            | Json.obj kvs =>
                .ok { valid_json := true,
                      identity_verified := qr_data.identity_hash.eqStr env.expected_identity,
                      time_verified := decide (|env.now - t| ≤ env.max_time_drift),
                      blockchain_verified :=
                        kvs.any (fun kv => optStrEqJson (dictGet? env.current_hashes kv.1) kv.2) }
            | _ => .error PyExc.attributeError
          else
            .ok { valid_json := true,
                  identity_verified := qr_data.identity_hash.eqStr env.expected_identity,
                  time_verified := decide (|env.now - t| ≤ env.max_time_drift),
                  blockchain_verified := false }
      | _ => .error PyExc.typeError

/-! ### `QRLiveProtocol.generate_single_qr` (the Aggregation Orchestrator) -/

/-- Values the component reads of one `generate_single_qr` call return. -/
structure GenEnv where
  /-- `self.time_provider.get_current_time().isoformat()`. -/
  timestamp : String
  /-- `self.identity_manager.get_identity_hash()`. -/
  identity_hash : String
  /-- `self.blockchain_verifier.get_blockchain_hashes()`. -/
  blockchain_hashes : List (String × String)
  /-- `self.time_provider.get_time_server_verification()`. -/
  time_server_verification : List (String × VerifEntry)

/-- The orchestrator state `generate_single_qr` touches. -/
structure OrchestratorState where
  sequence_number : Nat := 0
  current_qr_data : Option ProofPacket := none

/-- `QRLiveProtocol.generate_single_qr`: build the packet with the current
counter value, then increment the counter and store the packet (the QR
image bytes are produced by the out-of-scope encoder and not modelled). -/
def generate_single_qr (env : GenEnv) (user_data : Option (List (String × Json)))
    (s : OrchestratorState) : ProofPacket × OrchestratorState :=
  let qr_data : ProofPacket :=
    { timestamp := env.timestamp
      identity_hash := env.identity_hash
      blockchain_hashes := env.blockchain_hashes
      time_server_verification := env.time_server_verification
      user_data := user_data
      sequence_number := s.sequence_number }
  (qr_data, { sequence_number := s.sequence_number + 1, current_qr_data := some qr_data })

/-- A sequence of successive `generate_single_qr` calls on one orchestrator
instance, each with its own read values and user data. -/
def runGenerations (calls : List (GenEnv × Option (List (String × Json))))
    (s : OrchestratorState) : List ProofPacket × OrchestratorState :=
  match calls with
  | [] => ([], s)
  | c :: rest =>
    let r := generate_single_qr c.1 c.2 s
    let rs := runGenerations rest r.2
    (r.1 :: rs.1, rs.2)

/-! ### `TimeProvider` (the TimeSource Aggregator) -/

/-- The `TimeServerResponse` dataclass of `src/time_provider.py`. -/
structure TimeServerResponse where
  server : String
  timestamp : ℚ
  offset : ℚ
  delay : ℚ
  stratum : Nat
  success : Bool
  error : Option String := none

/-- The mutable state of a `TimeProvider` instance.  `syncLockHeld` is true
exactly while another thread is inside `_sync_with_servers` (the
`sync_lock` acquired with `blocking=False`). -/
structure TimeProviderState where
  time_offsets : List (String × ℚ) := []
  last_sync_time : ℚ := 0
  syncLockHeld : Bool := false
  total_syncs : Nat := 0
  successful_syncs : Nat := 0
  failed_syncs : Nat := 0

/-- Environment of one `TimeProvider` operation: the local clock and what
the configured time servers answer this round. -/
structure TimeEnv where
  /-- `time.time()`. -/
  now : ℚ
  /-- The list `sync_all_servers()` returns for this round. -/
  responses : List TimeServerResponse
  /-- `self.settings.update_interval`. -/
  update_interval : ℚ
  /-- `datetime.fromtimestamp(x, timezone.utc).isoformat()`. -/
  isoformat : ℚ → String

/-- `TimeProvider.get_current_time`: local clock plus the median of the
stored per-server offsets (returned as the POSIX timestamp of the UTC
datetime the method builds). -/
def get_current_time (env : TimeEnv) (s : TimeProviderState) : ℚ :=
  let current_time := env.now
  if !s.time_offsets.isEmpty then
    let offsets := (s.time_offsets.map Prod.snd).insertionSort (· ≤ ·)
    let n := offsets.length
    let median_offset :=
      if n % 2 = 0 then (offsets.getD (n / 2 - 1) 0 + offsets.getD (n / 2) 0) / 2
      else offsets.getD (n / 2) 0
    current_time + median_offset
  else
    current_time

/-- The median described by the spec: sort the offsets; an empty set has
median 0; an even-sized set has the average of the two middle values after
sorting; an odd-sized set has the middle value. -/
def medianSpec (l : List ℚ) : ℚ :=
  let sorted := l.insertionSort (· ≤ ·)
  let n := sorted.length
  if n = 0 then 0
  else if n % 2 = 0 then (sorted.getD (n / 2 - 1) 0 + sorted.getD (n / 2) 0) / 2
  else sorted.getD (n / 2) 0

/-- `TimeProvider._sync_with_servers`: single-flight (a call finding the
lock held returns at once, touching nothing); otherwise one completed sync
round: `total_syncs` is incremented, the offsets map is replaced and
`successful_syncs` incremented when at least one response succeeded, else
`failed_syncs` is incremented and the old offsets are kept. -/
def sync_with_servers (env : TimeEnv) (s : TimeProviderState) : TimeProviderState :=
  if s.syncLockHeld then s
  else
    let s1 := { s with total_syncs := s.total_syncs + 1 }
    let new_offsets :=
      (env.responses.filter (fun r => r.success)).map (fun r => (r.server, r.offset))
    if !new_offsets.isEmpty then
      { s1 with time_offsets := new_offsets,
                successful_syncs := s1.successful_syncs + 1,
                last_sync_time := env.now }
    else
      { s1 with failed_syncs := s1.failed_syncs + 1 }

/-- `TimeProvider.__init__`: zeroed statistics and empty offsets, followed
by the initial `_sync_with_servers()` call. -/
def TimeProvider.init (env : TimeEnv) : TimeProviderState :=
  sync_with_servers env {}

/-- `TimeProvider.get_time_server_verification`: lazily re-sync when the
consensus is older than the update interval, then report each server's
derived time, offset and last sync time. -/
def get_time_server_verification (env : TimeEnv) (s : TimeProviderState) :
    List (String × VerifEntry) × TimeProviderState :=
  let s' := if env.update_interval < env.now - s.last_sync_time
            then sync_with_servers env s else s
  (s'.time_offsets.map (fun so =>
      (so.1, { timestamp := env.isoformat (env.now + so.2), offset := so.2,
               last_sync := s'.last_sync_time })),
   s')

/-- `TimeProvider.force_sync`: re-sync and report whether
`successful_syncs` grew. -/
def force_sync (env : TimeEnv) (s : TimeProviderState) : Bool × TimeProviderState :=
  let old_count := s.successful_syncs
  let s' := sync_with_servers env s
  (decide (old_count < s'.successful_syncs), s')

/-- The public operations of a `TimeProvider` instance that can touch its
statistics. -/
inductive TPOp where
  | syncWithServers
  | forceSync
  | getVerification
  | getCurrentTime

/-- State effect of one `TimeProvider` operation. -/
def TPstep (env : TimeEnv) : TPOp → TimeProviderState → TimeProviderState
  | .syncWithServers, s => sync_with_servers env s
  | .forceSync, s => (force_sync env s).2
  | .getVerification, s => (get_time_server_verification env s).2
  | .getCurrentTime, s => s

/-- The statistics invariant of claim C10. -/
def statsInv (s : TimeProviderState) : Prop :=
  s.total_syncs = s.successful_syncs + s.failed_syncs

/-! ### `BlockchainVerifier` (the ChainHash Cache) -/

/-- The `BlockchainInfo` dataclass of `src/blockchain_verifier.py`
(its `timestamp` field held as a POSIX value). -/
structure BlockchainInfo where
  chain : String
  block_number : Nat
  block_hash : String
  timestamp : ℚ
  retrieved_at : ℚ
  confirmations : Nat := 0
deriving Repr, DecidableEq

/-- The mutable state of a `BlockchainVerifier` instance.  `updateLockHeld`
is true exactly while some other thread is inside `_update_chain` (the
`update_lock` acquired with `blocking=False`). -/
structure BVState where
  cached_blocks : List (String × BlockchainInfo) := []
  last_update : List (String × ℚ) := []
  updateLockHeld : Bool := false
  total_requests : Nat := 0
  successful_requests : Nat := 0
  failed_requests : Nat := 0
  cache_hits : Nat := 0

/-- Environment of one `BlockchainVerifier` operation: the clock, the
settings it reads, and what the chain handlers' network requests would
return right now (`none` = every endpoint for that chain failed). -/
structure BVEnv where
  /-- `time.time()`. -/
  now : ℚ
  /-- `self.settings.enabled_chains`. -/
  enabled_chains : List String
  /-- `self.settings.cache_duration`. -/
  cache_duration : ℚ
  /-- Result of `self.chain_handlers[chain]()` for each handled chain. -/
  fetch : String → Option BlockchainInfo

/-- The keys of `self.chain_handlers` set up in `__init__`. -/
def chainHandlers : List String := ["bitcoin", "ethereum", "litecoin"]

/-- `BlockchainVerifier._update_chain`: a call finding the update lock held
counts a cache hit and reports success without doing anything; otherwise it
counts the request, runs the chain's handler, and on success stores the new
record and update time. -/
def update_chain (env : BVEnv) (chain : String) (s : BVState) : Bool × BVState :=
  if s.updateLockHeld then (true, { s with cache_hits := s.cache_hits + 1 })
  else
    let s1 := { s with total_requests := s.total_requests + 1 }
    if chainHandlers.contains chain then
      match env.fetch chain with
      | some block_info =>
          (true, { s1 with
                    cached_blocks := dictSet s1.cached_blocks chain block_info,
                    last_update := dictSet s1.last_update chain env.now,
                    successful_requests := s1.successful_requests + 1 })
      | none => (false, { s1 with failed_requests := s1.failed_requests + 1 })
    else
      (false, { s1 with failed_requests := s1.failed_requests + 1 })

/-- The loop body of `BlockchainVerifier._update_all_chains`: update each
chain in turn, counting successes. -/
def updateChains (env : BVEnv) : List String → BVState → Nat × BVState
  | [], s => (0, s)
  | chain :: rest, s =>
      let r := update_chain env chain s
      let rs := updateChains env rest r.2
      ((if r.1 then 1 else 0) + rs.1, rs.2)

/-- `BlockchainVerifier._update_all_chains`: true iff at least one enabled
chain updated. -/
def update_all_chains (env : BVEnv) (s : BVState) : Bool × BVState :=
  let r := updateChains env env.enabled_chains s
  (decide (0 < r.1), r.2)

/-- `BlockchainVerifier.force_update`. -/
def force_update (env : BVEnv) (chain : Option String) (s : BVState) : Bool × BVState :=
  match chain with
  | some ch => update_chain env ch s
  | none => update_all_chains env s

/-- `BlockchainVerifier._update_if_needed`, with the refresh threads it
spawns for stale chains taken as running to completion immediately (the
strongest effect they can have on the state the caller then reads). -/
def update_if_needed (env : BVEnv) (s : BVState) : BVState :=
  env.enabled_chains.foldl
    (fun st chain =>
      if env.cache_duration < env.now - ((dictGet? st.last_update chain).getD 0)
      then (update_chain env chain st).2 else st) s

/-- `BlockchainVerifier.get_blockchain_info`: refresh stale chains, then
return the cached record for the chain, or `none` ("not available"). -/
def get_blockchain_info (env : BVEnv) (s : BVState) (chain : String) :
    Option BlockchainInfo × BVState :=
  let s' := update_if_needed env s
  (dictGet? s'.cached_blocks chain, s')

/-- `BlockchainVerifier.get_blockchain_hashes`: refresh stale chains, then
map each cached enabled chain to its block hash. -/
def get_blockchain_hashes (env : BVEnv) (s : BVState) :
    List (String × String) × BVState :=
  let s' := update_if_needed env s
  ((s'.cached_blocks.filter (fun kv => env.enabled_chains.contains kv.1)).map
      (fun kv => (kv.1, kv.2.block_hash)),
   s')

/-! ### `IdentityManager` (the IdentityDigest Builder) -/

/-- The `IdentitySettings` dataclass of `src/config.py`. -/
structure IdentitySettings where
  identity_file : Option String := none
  auto_generate : Bool := true
  hash_algorithm : String := "sha256"
  include_system_info : Bool := true
  include_file_hash : Bool := true

/-- The `IdentityInfo` dataclass of `src/identity_manager.py`
(`creation_time` held as its ISO string; the `Any`-typed map values of
`system_info` and `custom_data` held as strings). -/
structure IdentityInfo where
  identity_hash : String
  creation_time : String
  system_info : List (String × String)
  file_hashes : List (String × String)
  custom_data : List (String × String)
  version : String := "1.0"

/-- The hashing and canonical-serialization primitives the identity code
uses, abstracted from `hashlib` and `json.dumps(..., sort_keys=True)`. -/
structure HashEnv where
  dumps_sorted : List (String × String) → String
  sha256 : String → String
  sha512 : String → String
  md5 : String → String
  /-- `hashlib.new(alg)` fed the file's bytes chunk by chunk, then
  `hexdigest()` (the settings' algorithm names are assumed valid). -/
  hashBytes : String → List Nat → String

/-- The file system as the identity code sees it.  `read p = none` means
opening or reading `p` raises (`readErrMsg p` being `str(e)` for the
exception raised). -/
structure FSEnv where
  fileExists : String → Bool
  read : String → Option (List Nat)
  readErrMsg : String → String
  /-- Result of parsing `p` as an exported identity document
  (`import_identity`); `none` when opening, JSON-decoding or a missing
  key raises. -/
  parseIdentityFile : String → Option IdentityInfo

/-- Environment of one `IdentityManager` operation. -/
structure IMEnv where
  /-- `time.time()`. -/
  now : ℚ
  fs : FSEnv
  hash : HashEnv
  /-- `self._collect_system_info()`. -/
  collectSystemInfo : List (String × String)
  /-- `datetime.utcnow()` at identity creation, as its ISO string. -/
  creationTimeNow : String

/-- The mutable state of an `IdentityManager` instance. -/
structure IMState where
  settings : IdentitySettings
  identity_info : Option IdentityInfo := none
  cached_hash : Option String := none
  last_hash_time : ℚ := 0
  hash_generations : Nat := 0
  file_reads : Nat := 0
  system_info_queries : Nat := 0

/-- `IdentityManager._calculate_file_hash`: a streaming content hash of the
file; any exception is caught and rendered as an `"error:..."` string. -/
def calculate_file_hash (env : IMEnv) (settings : IdentitySettings) (path : String) : String :=
  match env.fs.read path with
  | some content => env.hash.hashBytes settings.hash_algorithm content
  | none => "error:" ++ env.fs.readErrMsg path

/-- `IdentityManager._generate_identity_hash`: serialize each non-empty
component map with sorted keys, label it, join with `"|"`, and hash with
the configured algorithm (unknown names fall back to SHA-256); an absent
identity yields `""`. -/
def generate_identity_hash (h : HashEnv) (settings : IdentitySettings)
    (info : Option IdentityInfo) : String :=
  match info with
  | none => ""
  | some ii =>
    let components : List String :=
      (if !ii.system_info.isEmpty then ["system:" ++ h.dumps_sorted ii.system_info] else []) ++
      (if !ii.file_hashes.isEmpty then ["files:" ++ h.dumps_sorted ii.file_hashes] else []) ++
      (if !ii.custom_data.isEmpty then ["custom:" ++ h.dumps_sorted ii.custom_data] else []) ++
      ["created:" ++ ii.creation_time]
    let combined := String.intercalate "|" components
    if settings.hash_algorithm = "sha256" then h.sha256 combined
    else if settings.hash_algorithm = "sha512" then h.sha512 combined
    else if settings.hash_algorithm = "md5" then h.md5 combined
    else h.sha256 combined

/-- `IdentityManager._identity_changed`: true when there is no identity, or
when the configured `identity_file` (and only that file) exists and its
live content hash differs from the stored `"identity_file"` entry. -/
def identity_changed (env : IMEnv) (s : IMState) : Bool :=
  match s.identity_info with
  | none => true
  | some ii =>
    match s.settings.identity_file with
    | some f =>
      if f ≠ "" && env.fs.fileExists f then
        let current_hash := calculate_file_hash env s.settings f
        match dictGet? ii.file_hashes "identity_file" with
        | some stored => current_hash ≠ stored
        | none => true
      else false
    | none => false

/-- `IdentityManager.get_identity_hash`: return the cached digest when it
is non-empty, younger than 60 seconds and `_identity_changed()` is false;
otherwise recompute from the stored identity info and cache the result. -/
def get_identity_hash (env : IMEnv) (s : IMState) : String × IMState :=
  let cachedTruthy := match s.cached_hash with
                      | some c => c ≠ ""
                      | none => false
  if cachedTruthy && decide (env.now - s.last_hash_time < 60) && !identity_changed env s then
    (s.cached_hash.getD "", s)
  else
    let g := generate_identity_hash env.hash s.settings s.identity_info
    (g, { s with cached_hash := some g, last_hash_time := env.now,
                 hash_generations := s.hash_generations + 1 })

/-- `os.path.basename`, for POSIX-style paths. -/
def basename (p : String) : String :=
  (p.splitOn "/").getLastD p

/-- The dictionary key `add_file_to_identity` stores the file hash under:
`alias or os.path.basename(file_path)` (an empty alias is falsy). -/
def addFileKey (aliasOpt : Option String) (file_path : String) : String :=
  match aliasOpt with
  | some a => if a ≠ "" then a else basename file_path
  | none => basename file_path

/-- `IdentityManager._create_new_identity`. -/
def create_new_identity (env : IMEnv) (s : IMState) : IMState :=
  let system_info := if s.settings.include_system_info then env.collectSystemInfo else []
  let file_hashes : List (String × String) :=
    match s.settings.identity_file with
    | some f =>
        if s.settings.include_file_hash && f ≠ "" && env.fs.fileExists f then
          [("identity_file", calculate_file_hash env s.settings f)]
        else []
    | none => []
  let ii0 : IdentityInfo :=
    { identity_hash := "", creation_time := env.creationTimeNow,
      system_info := system_info, file_hashes := file_hashes, custom_data := [] }
  let ii1 : IdentityInfo :=
    { ii0 with identity_hash := generate_identity_hash env.hash s.settings (some ii0) }
  { s with identity_info := some ii1 }

/-- The identity-set-up method `__init__` and `add_file_to_identity` call
(its Python name is an underscore-prefixed form of "init identity"): import
the configured identity file if it exists and parses, otherwise create a
new identity when auto-generation is enabled, else leave no identity. -/
def initIdentity (env : IMEnv) (s : IMState) : IMState :=
  let fallback :=
    if s.settings.auto_generate then create_new_identity env s
    else { s with identity_info := none }
  match s.settings.identity_file with
  | some f =>
      if f ≠ "" && env.fs.fileExists f then
        match env.fs.parseIdentityFile f with
        | some ii => { s with identity_info := some ii, cached_hash := none }
        | none => fallback
      else fallback
  | none => fallback

/-- `IdentityManager.add_file_to_identity`. -/
def add_file_to_identity (env : IMEnv) (file_path : String) (aliasOpt : Option String)
    (s : IMState) : Bool × IMState :=
  if !env.fs.fileExists file_path then (false, s)
  else
    let file_hash := calculate_file_hash env s.settings file_path
    let key := addFileKey aliasOpt file_path
    let s1 := if s.identity_info.isNone then initIdentity env s else s
    match s1.identity_info with
    | some ii =>
        let ii' : IdentityInfo := { ii with file_hashes := dictSet ii.file_hashes key file_hash }
        (true, { s1 with identity_info := some ii', cached_hash := none,
                         file_reads := s1.file_reads + 1 })
    | none => (false, s1)

/-! ### Concrete instances used to evaluate the model on specific inputs -/

/-- The chains `force_update` acts on: the given chain, or all enabled
chains. -/
def targetChains (env : BVEnv) : Option String → List String
  | some ch => [ch]
  | none => env.enabled_chains

/-- A concrete verification environment whose timestamp parser rejects
every string. -/
def envC1 : VerifyEnv :=
  { expected_identity := "", current_hashes := [], now := 0, max_time_drift := 30,
    fromisoformat := fun _ => IsoParse.err "Invalid isoformat string" }

/-- A concrete verification environment knowing one identity, one chain
hash and one parseable timestamp. -/
def envGood : VerifyEnv :=
  { expected_identity := "id", current_hashes := [("bitcoin", "h1")], now := 5,
    max_time_drift := 30,
    fromisoformat := fun ts => if ts = "2025-01-01T00:00:00+00:00" then IsoParse.aware 0
                               else IsoParse.err "Invalid isoformat string" }

/-- A concrete well-typed packet carrying one bitcoin hash. -/
def pktBtc : ProofPacket :=
  { timestamp := "2025-01-01T00:00:00+00:00", identity_hash := "id",
    blockchain_hashes := [("bitcoin", "h1")], time_server_verification := [],
    user_data := none, sequence_number := 0 }

/-- A concrete well-typed packet with an empty chain-hash map and null user
data. -/
def pktEmpty : ProofPacket :=
  { timestamp := "2025-01-01T00:00:00+00:00", identity_hash := "id",
    blockchain_hashes := [], time_server_verification := [], user_data := none,
    sequence_number := 3 }

/-- A concrete time environment (no responses, local clock at 100). -/
def envT : TimeEnv :=
  { now := 100, responses := [], update_interval := 1, isoformat := fun _ => "" }

/-- A time-provider state holding the five offsets −2, −1, 0, 1, 2. -/
def sFive : TimeProviderState :=
  { time_offsets := [("a", -2), ("b", -1), ("c", 0), ("d", 1), ("e", 2)] }

/-- A time-provider state holding the two offsets 1 and 2. -/
def sTwo : TimeProviderState :=
  { time_offsets := [("a", 1), ("b", 2)] }

/-- A time environment with one successful and one failed response. -/
def envTSync : TimeEnv :=
  { now := 100,
    responses := [{ server := "time.nist.gov", timestamp := 100, offset := 1 / 20,
                    delay := 0, stratum := 1, success := true },
                  { server := "pool.ntp.org", timestamp := 0, offset := 0, delay := 0,
                    stratum := 0, success := false, error := some "timeout" }],
    update_interval := 1, isoformat := fun _ => "" }

/-- A chain environment in which every endpoint of every chain is
unreachable. -/
def envDown : BVEnv :=
  { now := 1000, enabled_chains := ["bitcoin"], cache_duration := 300,
    fetch := fun _ => none }

/-- A chain environment in which bitcoin's first endpoint answers. -/
def envUp : BVEnv :=
  { now := 1000, enabled_chains := ["bitcoin"], cache_duration := 300,
    fetch := fun ch => if ch = "bitcoin"
                       then some { chain := "bitcoin", block_number := 900000,
                                   block_hash := "abc", timestamp := 990,
                                   retrieved_at := 1000 }
                       else none }

/-- A verifier state in which another thread holds the update lock. -/
def sLocked : BVState := { updateLockHeld := true }

/-- A fresh verifier state: empty cache, lock free. -/
def sFresh : BVState := {}

/-- Hash primitives that tag their input: the mock byte hash writes the
sum of the bytes in unary, distinguishing the concrete contents used
here. -/
def hashTag : HashEnv :=
  { dumps_sorted := fun l => String.intercalate ";" (l.map (fun kv => kv.1 ++ "=" ++ kv.2)),
    sha256 := fun s => "sha256(" ++ s ++ ")",
    sha512 := fun s => "sha512(" ++ s ++ ")",
    md5 := fun s => "md5(" ++ s ++ ")",
    hashBytes := fun alg content =>
      alg ++ ":" ++ String.mk (List.replicate (content.foldl (· + ·) 0) 'x') }

/-- File system before the tracked file is modified: `doc.txt` holds byte
1. -/
def fsBefore : FSEnv :=
  { fileExists := fun p => p = "doc.txt",
    read := fun p => if p = "doc.txt" then some [1] else none,
    readErrMsg := fun _ => "unreadable", parseIdentityFile := fun _ => none }

/-- File system after the tracked file is modified: `doc.txt` holds byte
2. -/
def fsAfter : FSEnv :=
  { fsBefore with read := fun p => if p = "doc.txt" then some [2] else none }

/-- Identity environment reading the pre-modification file system. -/
def imEnvBefore : IMEnv :=
  { now := 10, fs := fsBefore, hash := hashTag, collectSystemInfo := [],
    creationTimeNow := "2025-01-01T00:00:00" }

/-- Identity environment reading the post-modification file system. -/
def imEnvAfter : IMEnv := { imEnvBefore with fs := fsAfter }

/-- Stored identity tracking `doc.txt` with its pre-modification content
hash. -/
def iiDoc : IdentityInfo :=
  { identity_hash := "D0", creation_time := "2025-01-01T00:00:00", system_info := [],
    file_hashes := [("doc.txt", "sha256:x")], custom_data := [] }

/-- Identity-manager state with a fresh cached digest `"D0"` (computed at
time 0, clock now at 10) and default settings (no `identity_file`). -/
def sDoc : IMState :=
  { settings := {}, identity_info := some iiDoc, cached_hash := some "D0",
    last_hash_time := 0 }

/-- File system for the unreadable-file scenario: `secret.bin` exists but
every read raises. -/
def fsDenied : FSEnv :=
  { fileExists := fun p => p = "secret.bin", read := fun _ => none,
    readErrMsg := fun _ => "Permission denied", parseIdentityFile := fun _ => none }

/-- Identity environment over the unreadable file system. -/
def imEnvDenied : IMEnv :=
  { now := 0, fs := fsDenied, hash := hashTag, collectSystemInfo := [],
    creationTimeNow := "2025-01-01T00:00:00" }

/-- File system in which `notes.txt` is readable, holding bytes summing to
3. -/
def fsReadable : FSEnv :=
  { fileExists := fun p => p = "notes.txt",
    read := fun p => if p = "notes.txt" then some [1, 2] else none,
    readErrMsg := fun _ => "unreadable", parseIdentityFile := fun _ => none }

/-- Identity environment over the readable file system. -/
def imEnvReadable : IMEnv :=
  { now := 0, fs := fsReadable, hash := hashTag, collectSystemInfo := [],
    creationTimeNow := "2025-01-01T00:00:00" }

/-- An identity-manager state with an empty identity present. -/
def sEmptyIdentity : IMState :=
  { settings := {},
    identity_info := some { identity_hash := "", creation_time := "2025-01-01T00:00:00",
                            system_info := [], file_hashes := [], custom_data := [] } }

/-! ## Helper lemmas -/

/-- Parsing the serialized form of a well-typed packet succeeds and yields
the dataclass instance holding exactly the packet's fields. -/
theorem fromLoaded_toJson (p : ProofPacket) :
    QRData.fromLoaded p.toJson = Except.ok (QRData.ofPacket p) := by
  rfl

/-- The sequence numbers of the packets produced by successive
`generate_single_qr` calls count up from the starting counter value. -/
theorem runGenerations_seqs (calls : List (GenEnv × Option (List (String × Json))))
    (s : OrchestratorState) :
    ((runGenerations calls s).1.map (fun p => p.sequence_number))
      = List.range' s.sequence_number calls.length := by
  induction calls generalizing s with
  | nil => rfl
  | cons c rest ih =>
      simp [runGenerations, generate_single_qr, List.range'_succ, ih]

/-- Consecutive elements of `List.range'` differ by exactly one. -/
theorem chain'_consec_range' (a n : Nat) :
    List.Chain' (fun x y => y = x + 1) (List.range' a n) := by
  induction n generalizing a with
  | zero => simp
  | succ n ih =>
      rw [List.range'_succ]
      cases n with
      | zero => simp
      | succ m =>
          rw [List.range'_succ]
          refine List.chain'_cons.mpr ⟨rfl, ?_⟩
          rw [← List.range'_succ]
          exact ih (a + 1)

/-- `any` over a string-map embedded into JSON pairs. -/
theorem any_map_strPair (l : List (String × String)) (f : String × Json → Bool) :
    (l.map (fun kv => (kv.1, Json.str kv.2))).any f
      = l.any (fun kv => f (kv.1, Json.str kv.2)) := by
  induction l with
  | nil => rfl
  | cons a t ih => simp [ih]

/-- One sync round preserves the statistics invariant. -/
theorem sync_preserves_statsInv (env : TimeEnv) (s : TimeProviderState)
    (h : statsInv s) : statsInv (sync_with_servers env s) := by
  unfold statsInv at *
  unfold sync_with_servers
  by_cases hl : s.syncLockHeld
  · simp [hl, h]
  · by_cases hn : (List.map (fun r => (r.server, r.offset))
        (List.filter (fun r => r.success) env.responses)).isEmpty
    · simp [hl, hn]
      omega
    · simp [hl, hn]
      omega

/-! ## Claim C2 -/

/-- C2: for any single orchestrator instance, the sequence numbers of the
packets produced by successive `generate_single_qr` calls are exactly the
consecutive integers starting at the current counter, hence strictly
increasing with `seq(n+1) = seq(n) + 1` for consecutive calls. -/
theorem C2_sequence_numbers (calls : List (GenEnv × Option (List (String × Json))))
    (s : OrchestratorState) :
    ((runGenerations calls s).1.map (fun p => p.sequence_number))
        = List.range' s.sequence_number calls.length ∧
    List.Chain' (fun a b => b = a + 1)
        ((runGenerations calls s).1.map (fun p => p.sequence_number)) ∧
    List.Chain' (· < ·)
        ((runGenerations calls s).1.map (fun p => p.sequence_number)) := by
  refine ⟨runGenerations_seqs calls s, ?_, ?_⟩ <;> rw [runGenerations_seqs]
  · exact chain'_consec_range' _ _
  · exact List.Chain'.imp (fun a b h => by omega) (chain'_consec_range' _ _)

/-! ## Claim C3 -/

/-- C3: `get_current_time` returns the local clock plus the spec's median
of the stored offsets (0 when the offsets map is empty; the average of the
two middle sorted values for an even count), and on the spec's two example
offset sets it returns `local + 0` and `local + 1.5`. -/
theorem C3_current_time_median (env : TimeEnv) (s : TimeProviderState) :
    get_current_time env s = env.now + medianSpec (s.time_offsets.map Prod.snd) ∧
    medianSpec [] = 0 ∧
    medianSpec [-2, -1, 0, 1, 2] = 0 ∧
    medianSpec [1, 2] = 3 / 2 ∧
    (s.time_offsets = [("a", -2), ("b", -1), ("c", 0), ("d", 1), ("e", 2)] →
       get_current_time env s = env.now) ∧
    (s.time_offsets = [("a", 1), ("b", 2)] →
       get_current_time env s = env.now + 3 / 2) := by
  have hmain : get_current_time env s = env.now + medianSpec (s.time_offsets.map Prod.snd) := by
    rcases hs : s.time_offsets with _ | ⟨a, l⟩
    · simp [get_current_time, medianSpec, hs]
    · unfold get_current_time medianSpec
      rw [hs]
      have hne : List.orderedInsert (fun x1 x2 => x1 ≤ x2) a.2
          (List.insertionSort (fun x1 x2 => x1 ≤ x2) (List.map Prod.snd l)) ≠ [] := by
        have hlen : (List.orderedInsert (fun x1 x2 => x1 ≤ x2) a.2
            (List.insertionSort (fun x1 x2 => x1 ≤ x2) (List.map Prod.snd l))).length
            = (List.insertionSort (fun x1 x2 => x1 ≤ x2) (List.map Prod.snd l)).length + 1 :=
          List.orderedInsert_length ..
        intro hc
        rw [hc] at hlen
        simp at hlen
      simp [hne]
  have h5 : medianSpec [-2, -1, 0, 1, 2] = 0 := by
    norm_num [medianSpec, List.insertionSort, List.orderedInsert]
  have h2 : medianSpec [1, 2] = 3 / 2 := by
    norm_num [medianSpec, List.insertionSort, List.orderedInsert]
  refine ⟨hmain, by norm_num [medianSpec], h5, h2, ?_, ?_⟩
  · intro hoff
    rw [hmain, hoff]
    simpa using h5
  · intro hoff
    rw [hmain, hoff]
    simpa using h2

/-- Witness for C3 at concrete inputs: with stored offsets 1 and 2 and the
local clock at 100, `get_current_time` returns 101.5. -/
theorem C3_current_time_median_witness :
    get_current_time envT sTwo = 100 + 3 / 2 :=
  (C3_current_time_median envT sTwo).2.2.2.2.2 rfl

/-! ## Claim C10 -/

/-- C10: `total_syncs = successful_syncs + failed_syncs` holds right after
construction and is preserved by every operation; a completed sync round
increments `total_syncs` and exactly one of the other two counters, and a
round skipped because the sync lock is held changes nothing. -/
theorem C10_stats_invariant :
    (∀ env, statsInv (TimeProvider.init env)) ∧
    (∀ env op s, statsInv s → statsInv (TPstep env op s)) ∧
    (∀ env s, s.syncLockHeld = true → sync_with_servers env s = s) ∧
    (∀ env s, s.syncLockHeld = false →
       (sync_with_servers env s).total_syncs = s.total_syncs + 1 ∧
       (((sync_with_servers env s).successful_syncs = s.successful_syncs + 1 ∧
         (sync_with_servers env s).failed_syncs = s.failed_syncs) ∨
        ((sync_with_servers env s).successful_syncs = s.successful_syncs ∧
         (sync_with_servers env s).failed_syncs = s.failed_syncs + 1))) := by
  refine ⟨?_, ?_, ?_, ?_⟩
  · intro env
    exact sync_preserves_statsInv env {} (by simp [statsInv])
  · intro env op s h
    cases op with
    | syncWithServers => exact sync_preserves_statsInv env s h
    | forceSync => exact sync_preserves_statsInv env s h
    | getVerification =>
        show statsInv (get_time_server_verification env s).2
        unfold get_time_server_verification
        split
        · exact sync_preserves_statsInv env s h
        · exact h
    | getCurrentTime => exact h
  · intro env s h
    unfold sync_with_servers
    simp [h]
  · intro env s h
    unfold sync_with_servers
    by_cases hn : (List.map (fun r => (r.server, r.offset))
        (List.filter (fun r => r.success) env.responses)).isEmpty
    · simp [h, hn]
    · simp [h, hn]

/-- Witness for C10: a state with the lock free and statistics 2 = 1 + 1,
run through a sync round with one successful response. -/
theorem C10_stats_invariant_witness :
    statsInv (TPstep envTSync TPOp.syncWithServers
      { time_offsets := [], last_sync_time := 0, syncLockHeld := false,
        total_syncs := 2, successful_syncs := 1, failed_syncs := 1 }) ∧
    (sync_with_servers envTSync
      { time_offsets := [], last_sync_time := 0, syncLockHeld := false,
        total_syncs := 2, successful_syncs := 1, failed_syncs := 1 }).total_syncs = 3 :=
  ⟨C10_stats_invariant.2.1 envTSync TPOp.syncWithServers _ (by simp [statsInv]),
   by simpa using (C10_stats_invariant.2.2.2 envTSync
      { time_offsets := [], last_sync_time := 0, syncLockHeld := false,
        total_syncs := 2, successful_syncs := 1, failed_syncs := 1 } rfl).1⟩

/-! ## Claim C4 -/

/-- C4: deserializing the serialized form of a well-typed packet reproduces
every field with identical types — `from_json (to_json p)` yields exactly
the dataclass instance of `p`, and the dataclass instance determines the
packet — including for an empty `blockchain_hashes` map and null
`user_data`. -/
theorem C4_serialization_roundtrip (p : ProofPacket) :
    QRData.fromLoaded p.toJson = Except.ok (QRData.ofPacket p) ∧
    (∀ q : ProofPacket, QRData.ofPacket p = QRData.ofPacket q → p = q) := by
  refine ⟨fromLoaded_toJson p, ?_⟩
  intro q h
  obtain ⟨pt, pi, pb, pv, pu, ps⟩ := p
  obtain ⟨qt, qi, qb, qv, qu, qs⟩ := q
  simp only [QRData.ofPacket, QRData.mk.injEq, Json.str.injEq, Json.obj.injEq,
    Json.num.injEq, ProofPacket.mk.injEq] at h ⊢
  obtain ⟨h1, h2, h3, h4, h5, h6⟩ := h
  refine ⟨h1, h2, ?_, ?_, ?_, ?_⟩
  · have hinj : Function.Injective (fun kv : String × String => (kv.1, Json.str kv.2)) := by
      rintro ⟨a, b⟩ ⟨c, d⟩ hkv
      simp only [Prod.mk.injEq, Json.str.injEq] at hkv
      simp [hkv.1, hkv.2]
    exact List.map_injective_iff.mpr hinj h3
  · have hinj : Function.Injective (fun kv : String × VerifEntry => (kv.1, kv.2.toJson)) := by
      rintro ⟨a, e1⟩ ⟨c, e2⟩ hkv
      obtain ⟨e1a, e1b, e1c⟩ := e1
      obtain ⟨e2a, e2b, e2c⟩ := e2
      simp only [VerifEntry.toJson, Prod.mk.injEq, Json.obj.injEq, List.cons.injEq,
        Json.str.injEq, Json.num.injEq, VerifEntry.mk.injEq] at hkv ⊢
      tauto
    exact List.map_injective_iff.mpr hinj h4
  · cases pu <;> cases qu <;> simp_all
  · exact_mod_cast h6

/-- Witness for C4 at a concrete packet with an empty chain-hash map and
null user data. -/
theorem C4_serialization_roundtrip_witness :
    QRData.fromLoaded pktEmpty.toJson = Except.ok (QRData.ofPacket pktEmpty) ∧
    pktEmpty = pktEmpty :=
  ⟨(C4_serialization_roundtrip pktEmpty).1,
   (C4_serialization_roundtrip pktEmpty).2 pktEmpty rfl⟩

/-! ## Claim C1 -/

/-- C1 counterexample: the string `"{}"` is valid JSON (it parses to the
empty object), yet `verify_qr_data` raises an uncaught `TypeError` — from
`QRData(**data)` with all required fields missing — instead of returning a
structured result. -/
theorem C1_counterexample :
    verify_qr_data envC1 (Except.ok (Json.obj [])) = Except.error PyExc.typeError := by
  rfl

/-- C1 (amended): `verify_qr_data` returns `{valid_json: false, error}`
when the input string fails JSON decoding, and an `ok` result always
either has `valid_json = true` with no error field or `valid_json = false`
with an error message; on the serialized form of a well-typed packet whose
timestamp parses as a timezone-aware datetime it returns `valid_json =
true` together with the three independent checks.  (Inputs that decode to
JSON not matching the dataclass signature, non-string or timezone-naive
timestamps, and truthy non-dict `blockchain_hashes` values instead raise an
uncaught `TypeError`/`AttributeError`.) -/
theorem C1_verify_structured_result (env : VerifyEnv) :
    (∀ msg, verify_qr_data env (Except.error msg) = Except.ok (parseFailure msg)) ∧
    (∀ j r, verify_qr_data env (Except.ok j) = Except.ok r →
       (r.valid_json = true ∧ r.error = none) ∨
       (r.valid_json = false ∧ r.error.isSome = true)) ∧
    (∀ (p : ProofPacket) (t : ℚ), env.fromisoformat p.timestamp = IsoParse.aware t →
       verify_qr_data env (Except.ok p.toJson) =
         Except.ok { valid_json := true,
                     identity_verified := decide (p.identity_hash = env.expected_identity),
                     time_verified := decide (|env.now - t| ≤ env.max_time_drift),
                     blockchain_verified := p.blockchain_hashes.any (fun kv =>
                       optStrEqJson (dictGet? env.current_hashes kv.1) (Json.str kv.2)) }) := by
  refine ⟨fun msg => rfl, ?_, ?_⟩
  · intro j r h
    simp only [verify_qr_data] at h
    split at h
    · exact absurd h (by simp)
    · split at h
      · split at h
        · injection h with h
          subst h
          right
          simp [parseFailure]
        · exact absurd h (by simp)
        · split at h
          · split at h
            · injection h with h
              subst h
              left
              exact ⟨rfl, rfl⟩
            · exact absurd h (by simp)
          · injection h with h
            subst h
            left
            exact ⟨rfl, rfl⟩
      · exact absurd h (by simp)
  · intro p t ht
    simp only [verify_qr_data, fromLoaded_toJson]
    rcases hb : p.blockchain_hashes with _ | ⟨kv, rest⟩
    · simp [QRData.ofPacket, ht, hb, Json.truthy, Json.eqStr]
    · simp [QRData.ofPacket, ht, hb, Json.truthy, Json.eqStr, any_map_strPair]

/-- Witness for C1 at a concrete packet and environment: the serialized
packet is verified with all three checks passing. -/
theorem C1_verify_structured_result_witness :
    verify_qr_data envGood (Except.ok pktBtc.toJson) =
      Except.ok { valid_json := true, identity_verified := true, time_verified := true,
                  blockchain_verified := true } := by
  have h := (C1_verify_structured_result envGood).2.2 pktBtc 0 rfl
  rw [h]
  norm_num [envGood, pktBtc, optStrEqJson, dictGet?]

/-! ## Claim C9 -/

/-- C9: for the serialized form of a well-typed packet whose
`blockchain_hashes` map is empty (and whose timestamp parses as a
timezone-aware datetime, as generated packets' timestamps do), the
any-match check is skipped, `blockchain_verified` keeps its initialized
`false` value, and `valid_json`, `identity_verified` and `time_verified`
are computed normally. -/
theorem C9_empty_hashes_unverified (env : VerifyEnv) (p : ProofPacket) (t : ℚ)
    (hb : p.blockchain_hashes = [])
    (ht : env.fromisoformat p.timestamp = IsoParse.aware t) :
    verify_qr_data env (Except.ok p.toJson) =
      Except.ok { valid_json := true,
                  identity_verified := decide (p.identity_hash = env.expected_identity),
                  time_verified := decide (|env.now - t| ≤ env.max_time_drift),
                  blockchain_verified := false } := by
  simp only [verify_qr_data, fromLoaded_toJson]
  simp [QRData.ofPacket, ht, hb, Json.truthy, Json.eqStr]

/-- Witness for C9 at a concrete packet with an empty chain-hash map. -/
theorem C9_empty_hashes_unverified_witness :
    verify_qr_data envGood (Except.ok pktEmpty.toJson) =
      Except.ok { valid_json := true, identity_verified := true, time_verified := true,
                  blockchain_verified := false } := by
  have h := C9_empty_hashes_unverified envGood pktEmpty 0 rfl rfl
  rw [h]
  norm_num [envGood, pktEmpty]

/-! ## Association-list lemmas for the chain cache -/

/-- In the replace-in-place branch of `dictSet`, the key's first occurrence
now carries the new value. -/
theorem find?_set_self {α : Type} (k : String) (v : α) :
    ∀ l : List (String × α), l.any (fun kv => kv.1 = k) = true →
      (l.map (fun kv => if kv.1 = k then (k, v) else kv)).find? (fun kv => kv.1 = k)
        = some (k, v)
  | [], h => by simp at h
  | kv :: t, h => by
      by_cases hk : kv.1 = k
      · rw [List.map_cons, if_pos hk]
        exact List.find?_cons_of_pos _ (by simp)
      · rw [List.map_cons, if_neg hk, List.find?_cons_of_neg _ (by simp [hk])]
        refine find?_set_self k v t ?_
        rcases List.any_eq_true.mp h with ⟨x, hx, hpx⟩
        rcases List.mem_cons.mp hx with h1 | h2
        · subst h1
          simp [hk] at hpx
        · exact List.any_eq_true.mpr ⟨x, h2, hpx⟩

/-- Replacing the value stored at `k` does not affect `find?` for another
key. -/
theorem find?_set_other {α : Type} (k k' : String) (v : α) (h : k' ≠ k) :
    ∀ l : List (String × α),
      (l.map (fun kv => if kv.1 = k then (k, v) else kv)).find? (fun kv => kv.1 = k')
        = l.find? (fun kv => kv.1 = k')
  | [] => rfl
  | kv :: t => by
      by_cases hk : kv.1 = k
      · rw [List.map_cons, if_pos hk,
            List.find?_cons_of_neg _ (by simp; exact fun hc => h hc.symm),
            List.find?_cons_of_neg _ (by simp [hk]; exact fun hc => h hc.symm)]
        exact find?_set_other k k' v h t
      · rw [List.map_cons, if_neg hk]
        by_cases hk' : kv.1 = k'
        · rw [List.find?_cons_of_pos _ (by simp [hk']),
              List.find?_cons_of_pos _ (by simp [hk'])]
        · rw [List.find?_cons_of_neg _ (by simp [hk']),
              List.find?_cons_of_neg _ (by simp [hk'])]
          exact find?_set_other k k' v h t

/-- Looking up the key just set returns the new value. -/
theorem dictGet?_dictSet_self {α : Type} (l : List (String × α)) (k : String) (v : α) :
    dictGet? (dictSet l k v) k = some v := by
  unfold dictSet
  by_cases hany : l.any (fun kv => kv.1 = k)
  · rw [if_pos hany]
    unfold dictGet?
    rw [find?_set_self k v l hany]
    rfl
  · rw [if_neg hany]
    unfold dictGet?
    rw [List.find?_append]
    have hnone : l.find? (fun kv => decide (kv.1 = k)) = none := by
      rw [List.find?_eq_none]
      intro x hx hpx
      exact hany (List.any_eq_true.mpr ⟨x, hx, hpx⟩)
    rw [hnone, List.find?_cons_of_pos _ (by simp)]
    rfl

/-- Setting one key leaves lookups of other keys unchanged. -/
theorem dictGet?_dictSet_other {α : Type} (l : List (String × α)) (k k' : String) (v : α)
    (h : k' ≠ k) : dictGet? (dictSet l k v) k' = dictGet? l k' := by
  unfold dictSet
  by_cases hany : l.any (fun kv => kv.1 = k)
  · rw [if_pos hany]
    unfold dictGet?
    rw [find?_set_other k k' v h l]
  · rw [if_neg hany]
    unfold dictGet?
    rw [List.find?_append,
        List.find?_cons_of_neg _ (by simp; exact fun hc => h hc.symm)]
    cases l.find? (fun kv => kv.1 = k') <;> rfl

/-! ## Lemmas about `update_chain` and its iterations -/

/-- `_update_chain` acquires and then releases the lock: the lock state it
leaves behind equals the one it found. -/
theorem update_chain_lock (env : BVEnv) (ch : String) (s : BVState) :
    ((update_chain env ch s).2).updateLockHeld = s.updateLockHeld := by
  unfold update_chain
  by_cases hl : s.updateLockHeld <;> by_cases hc : ch ∈ chainHandlers <;>
    cases hf : env.fetch ch <;> simp [hl, hc, hf]

/-- A refresh that fetches nothing (all endpoints failed, or the chain has
no handler, or the lock was held) leaves the block cache untouched. -/
theorem update_chain_cached_none (env : BVEnv) (ch : String) (s : BVState)
    (h : env.fetch ch = none) :
    ((update_chain env ch s).2).cached_blocks = s.cached_blocks := by
  unfold update_chain
  by_cases hl : s.updateLockHeld <;> by_cases hc : ch ∈ chainHandlers <;>
    simp [hl, hc, h]

/-- Refreshing one chain never touches another chain's cached record. -/
theorem update_chain_cached_other (env : BVEnv) (ch : String) (s : BVState) (ch' : String)
    (h : ch' ≠ ch) :
    dictGet? ((update_chain env ch s).2).cached_blocks ch'
      = dictGet? s.cached_blocks ch' := by
  unfold update_chain
  by_cases hl : s.updateLockHeld <;> by_cases hc : ch ∈ chainHandlers <;>
    cases hf : env.fetch ch <;>
      simp [hl, hc, hf, dictGet?_dictSet_other _ _ _ _ h]

/-- If a chain's endpoints are all failing, no refresh of any chain can
change that chain's cached record. -/
theorem update_chain_preserves_get (env : BVEnv) (ch₀ ch : String) (s : BVState)
    (h : env.fetch ch₀ = none) :
    dictGet? ((update_chain env ch s).2).cached_blocks ch₀
      = dictGet? s.cached_blocks ch₀ := by
  by_cases hc : ch₀ = ch
  · subst hc
    rw [update_chain_cached_none env ch₀ s h]
  · exact update_chain_cached_other env ch s ch₀ hc

/-- A lock-free refresh of a handled chain whose fetch succeeds stores the
fetched record. -/
theorem update_chain_stores (env : BVEnv) (ch : String) (s : BVState) (b : BlockchainInfo)
    (hl : s.updateLockHeld = false) (hc : ch ∈ chainHandlers)
    (hf : env.fetch ch = some b) :
    dictGet? ((update_chain env ch s).2).cached_blocks ch = some b := by
  unfold update_chain
  simp [hl, hc, hf, dictGet?_dictSet_self]

/-- A lock-free `_update_chain` call reports success exactly when the chain
is handled and its fetch succeeds. -/
theorem update_chain_fst (env : BVEnv) (ch : String) (s : BVState)
    (hl : s.updateLockHeld = false) :
    (update_chain env ch s).1 = (decide (ch ∈ chainHandlers) && (env.fetch ch).isSome) := by
  unfold update_chain
  by_cases hc : ch ∈ chainHandlers <;> cases hf : env.fetch ch <;>
    simp [hl, hc, hf]

/-- Iterated updates leave the lock state unchanged. -/
theorem updateChains_lock (env : BVEnv) (chains : List String) (s : BVState) :
    ((updateChains env chains s).2).updateLockHeld = s.updateLockHeld := by
  induction chains generalizing s with
  | nil => rfl
  | cons ch t ih => simp [updateChains, ih, update_chain_lock]

/-- Once a chain's cache holds exactly what its fetch returns, iterated
updates keep it there. -/
theorem updateChains_keeps (env : BVEnv) (ch : String) (b : BlockchainInfo)
    (hf : env.fetch ch = some b) :
    ∀ (chains : List String) (s : BVState),
      dictGet? s.cached_blocks ch = some b →
      dictGet? ((updateChains env chains s).2).cached_blocks ch = some b := by
  intro chains
  induction chains with
  | nil => exact fun s h => h
  | cons a t ih =>
      intro s h
      simp only [updateChains]
      apply ih
      by_cases hca : ch = a
      · subst hca
        unfold update_chain
        by_cases hl : s.updateLockHeld
        · simpa [hl] using h
        · by_cases hc : ch ∈ chainHandlers
          · simp [hl, hc, hf, dictGet?_dictSet_self]
          · simpa [hl, hc, hf] using h
      · rw [update_chain_cached_other env a s ch hca]
        exact h

/-- After iterating over a list containing a handled chain whose fetch
succeeds (starting lock-free), that chain's cache holds the fetched
record. -/
theorem updateChains_stores (env : BVEnv) :
    ∀ (chains : List String) (s : BVState) (ch : String) (b : BlockchainInfo),
      s.updateLockHeld = false → ch ∈ chains → ch ∈ chainHandlers →
      env.fetch ch = some b →
      dictGet? ((updateChains env chains s).2).cached_blocks ch = some b := by
  intro chains
  induction chains with
  | nil =>
      intro s ch b _ hmem
      simp at hmem
  | cons a t ih =>
      intro s ch b hl hmem hc hf
      simp only [updateChains]
      by_cases hca : ch = a
      · subst hca
        exact updateChains_keeps env ch b hf t _ (update_chain_stores env ch s b hl hc hf)
      · rcases List.mem_cons.mp hmem with h1 | h2
        · exact absurd h1 hca
        · refine ih _ ch b ?_ h2 hc hf
          rw [update_chain_lock]
          exact hl

/-- The success count of iterated lock-free updates is positive exactly
when some listed chain is handled and fetchable. -/
theorem updateChains_fst_pos (env : BVEnv) :
    ∀ (chains : List String) (s : BVState), s.updateLockHeld = false →
      (0 < (updateChains env chains s).1 ↔
        ∃ ch ∈ chains, ch ∈ chainHandlers ∧ (env.fetch ch).isSome = true) := by
  intro chains
  induction chains with
  | nil =>
      intro s hl
      simp [updateChains]
  | cons a t ih =>
      intro s hl
      simp only [updateChains]
      have hfst := update_chain_fst env a s hl
      have hlock : ((update_chain env a s).2).updateLockHeld = false := by
        rw [update_chain_lock]
        exact hl
      constructor
      · intro hpos
        by_cases hr : (update_chain env a s).1
        · rw [hfst, Bool.and_eq_true] at hr
          exact ⟨a, List.mem_cons_self .., of_decide_eq_true hr.1, hr.2⟩
        · have hrest : 0 < (updateChains env t (update_chain env a s).2).1 := by
            simpa [hr] using hpos
          rcases (ih _ hlock).mp hrest with ⟨ch, hcht, hprops⟩
          exact ⟨ch, List.mem_cons_of_mem _ hcht, hprops⟩
      · rintro ⟨ch, hmem, hc, hf⟩
        rcases List.mem_cons.mp hmem with h1 | h2
        · subst h1
          have hr : (update_chain env ch s).1 = true := by
            rw [hfst]
            simp [hc, hf]
          simp [hr]
        · have hrest := (ih _ hlock).mpr ⟨ch, h2, hc, hf⟩
          by_cases hr : (update_chain env a s).1
          · simp [hr]
          · simp [hr]
            omega

/-- The lazy per-chain refreshes of `_update_if_needed` cannot change the
cached record of a chain whose endpoints are all failing. -/
theorem update_if_needed_preserves_get (env : BVEnv) (ch₀ : String)
    (h : env.fetch ch₀ = none) :
    ∀ (chains : List String) (s : BVState),
      dictGet? ((chains.foldl (fun st chain =>
          if env.cache_duration < env.now - ((dictGet? st.last_update chain).getD 0)
          then (update_chain env chain st).2 else st) s)).cached_blocks ch₀
        = dictGet? s.cached_blocks ch₀ := by
  intro chains
  induction chains with
  | nil => intro s; rfl
  | cons a t ih =>
      intro s
      rw [List.foldl_cons, ih]
      by_cases hif : env.cache_duration < env.now - ((dictGet? s.last_update a).getD 0)
      · simp only [hif, if_true]
        exact update_chain_preserves_get env ch₀ a s h
      · simp [hif]

/-! ## Claim C5 -/

/-- C5 counterexample: with every endpoint of every chain unreachable but
the update lock held by another thread (as during the constructor's
background initial update), `force_update("bitcoin")` returns `true` even
though no block record was fetched or stored. -/
theorem C5_counterexample :
    (force_update envDown (some "bitcoin") sLocked).1 = true ∧
    ((force_update envDown (some "bitcoin") sLocked).2).cached_blocks = [] ∧
    envDown.fetch "bitcoin" = none := by
  exact ⟨rfl, rfl, rfl⟩

/-- C5 (amended): when the update lock is free, `force_update` — for one
chain or for all enabled chains — returns `true` exactly when at least one
targeted chain has a handler and a successful fetch, and each such chain's
fetched record is stored; a call that finds the lock held instead returns
`true` without refreshing anything. -/
theorem C5_force_update_success (env : BVEnv) (c : Option String) (s : BVState)
    (hl : s.updateLockHeld = false) :
    ((force_update env c s).1 = true ↔
       ∃ ch ∈ targetChains env c,
         ch ∈ chainHandlers ∧ (env.fetch ch).isSome = true) ∧
    (∀ ch b, ch ∈ targetChains env c → ch ∈ chainHandlers →
       env.fetch ch = some b →
       dictGet? ((force_update env c s).2).cached_blocks ch = some b) := by
  cases c with
  | some ch₁ =>
      constructor
      · show (update_chain env ch₁ s).1 = true ↔ _
        rw [update_chain_fst env ch₁ s hl]
        simp [targetChains]
      · intro ch b hmem hc hf
        simp only [targetChains, List.mem_singleton] at hmem
        subst hmem
        exact update_chain_stores env ch s b hl hc hf
  | none =>
      constructor
      · show (update_all_chains env s).1 = true ↔ _
        unfold update_all_chains
        simp only [decide_eq_true_eq]
        exact updateChains_fst_pos env env.enabled_chains s hl
      · intro ch b hmem hc hf
        exact updateChains_stores env env.enabled_chains s ch b hl hmem hc hf

/-- Witness for C5 at concrete inputs: lock free, bitcoin's endpoint
answering, `force_update("bitcoin")` returns `true` and stores the fetched
record. -/
theorem C5_force_update_success_witness :
    (force_update envUp (some "bitcoin") sFresh).1 = true ∧
    dictGet? ((force_update envUp (some "bitcoin") sFresh).2).cached_blocks "bitcoin"
      = envUp.fetch "bitcoin" := by
  have h := C5_force_update_success envUp (some "bitcoin") sFresh rfl
  constructor
  · exact h.1.mpr ⟨"bitcoin", by simp [targetChains], by decide, rfl⟩
  · have hs := h.2 "bitcoin"
      { chain := "bitcoin", block_number := 900000, block_hash := "abc",
        timestamp := 990, retrieved_at := 1000 }
      (by simp [targetChains]) (by decide) rfl
    rw [hs]
    rfl

/-! ## Claim C6 -/

/-- C6: when every endpoint of a chain fails, a refresh leaves the chain's
cached record untouched; concretely, two consecutive `force_update` calls
for that chain both return `false`, the cache is unchanged, and for a chain
with no prior record `get_blockchain_info` still answers "not available"
(`none`). -/
theorem C6_failed_refresh_frame (env : BVEnv) (s : BVState) (chain : String)
    (hf : env.fetch chain = none) (hl : s.updateLockHeld = false) :
    (force_update env (some chain) s).1 = false ∧
    ((force_update env (some chain) s).2).cached_blocks = s.cached_blocks ∧
    (force_update env (some chain) ((force_update env (some chain) s).2)).1 = false ∧
    ((force_update env (some chain) ((force_update env (some chain) s).2)).2).cached_blocks
      = s.cached_blocks ∧
    (dictGet? s.cached_blocks chain = none →
      (get_blockchain_info env
        ((force_update env (some chain) ((force_update env (some chain) s).2)).2) chain).1
        = none) := by
  have h1fst : (update_chain env chain s).1 = false := by
    rw [update_chain_fst env chain s hl]
    simp [hf]
  have hl2 : ((update_chain env chain s).2).updateLockHeld = false := by
    rw [update_chain_lock]
    exact hl
  have h1c := update_chain_cached_none env chain s hf
  have h2fst : (update_chain env chain ((update_chain env chain s).2)).1 = false := by
    rw [update_chain_fst env chain _ hl2]
    simp [hf]
  have h2c := update_chain_cached_none env chain ((update_chain env chain s).2) hf
  refine ⟨h1fst, h1c, h2fst, h2c.trans h1c, ?_⟩
  intro hnone
  show (get_blockchain_info env
      ((update_chain env chain ((update_chain env chain s).2)).2) chain).1 = none
  unfold get_blockchain_info update_if_needed
  simp only
  rw [update_if_needed_preserves_get env chain hf env.enabled_chains _]
  rw [dictGet?, h2c.trans h1c, ← dictGet?]
  exact hnone

/-- Witness for C6 at concrete inputs: a fresh cache for bitcoin with all
endpoints unreachable across two consecutive forced updates. -/
theorem C6_failed_refresh_frame_witness :
    (force_update envDown (some "bitcoin") sFresh).1 = false ∧
    (force_update envDown (some "bitcoin")
        ((force_update envDown (some "bitcoin") sFresh).2)).1 = false ∧
    (get_blockchain_info envDown
        ((force_update envDown (some "bitcoin")
          ((force_update envDown (some "bitcoin") sFresh).2)).2) "bitcoin").1 = none := by
  have h := C6_failed_refresh_frame envDown sFresh "bitcoin" rfl rfl
  exact ⟨h.1, h.2.2.1, h.2.2.2.2 rfl⟩

/-! ## Claim C7 -/

/-- C7 counterexample: `doc.txt` is tracked (added with its content hash
stored), its bytes change on disk — the live content hash genuinely
differs — yet inside the freshness window the next `get_identity_hash`
returns the same digest as before the modification: change detection only
inspects the configured `identity_file` (none here), so the stale cached
digest is returned. -/
theorem C7_counterexample :
    calculate_file_hash imEnvAfter sDoc.settings "doc.txt"
        ≠ calculate_file_hash imEnvBefore sDoc.settings "doc.txt" ∧
    (get_identity_hash imEnvBefore sDoc).1 = "D0" ∧
    (get_identity_hash imEnvAfter sDoc).1 = "D0" := by
  refine ⟨?_, ?_, ?_⟩
  · intro hc
    simp [calculate_file_hash, imEnvAfter, imEnvBefore, fsAfter, fsBefore, sDoc,
      hashTag] at hc
    exact absurd hc (by decide)
  · norm_num [get_identity_hash, identity_changed, imEnvBefore, sDoc, iiDoc]
    rw [if_neg (by decide : ¬("D0" = ""))]
  · norm_num [get_identity_hash, identity_changed, imEnvAfter, imEnvBefore, sDoc, iiDoc]
    rw [if_neg (by decide : ¬("D0" = ""))]

/-- C7 (amended): modifying a tracked file's bytes does not change what
`get_identity_hash` returns.  With no `identity_file` configured the
result is independent of the file system entirely, and in every case the
returned digest is either the cached digest or a recomputation from the
stored identity info — the stored file-hash map is never refreshed from
disk. -/
theorem C7_digest_ignores_file_changes (env : IMEnv) (fs' : FSEnv) (s : IMState)
    (h : s.settings.identity_file = none) :
    get_identity_hash { env with fs := fs' } s = get_identity_hash env s ∧
    ((get_identity_hash env s).1
        = generate_identity_hash env.hash s.settings s.identity_info ∨
      s.cached_hash = some (get_identity_hash env s).1) := by
  have hch : ∀ e : IMEnv, identity_changed e s = s.identity_info.isNone := by
    intro e
    unfold identity_changed
    cases s.identity_info <;> simp [h]
  constructor
  · unfold get_identity_hash
    rw [hch { env with fs := fs' }, hch env]
  · unfold get_identity_hash
    rcases hcache : s.cached_hash with _ | c
    · left
      simp
    · by_cases hcond : ((c ≠ "" : Bool) && decide (env.now - s.last_hash_time < 60)
          && !identity_changed env s) = true
      · right
        simp only [hcache, hcond, if_true]
        rfl
      · left
        simp only [hcache, hcond, if_false]
        rfl

/-- Witness for C7 at concrete inputs: swapping the file system for the
post-modification one does not change the digest `get_identity_hash`
returns. -/
theorem C7_digest_ignores_file_changes_witness :
    get_identity_hash { imEnvBefore with fs := fsAfter } sDoc
      = get_identity_hash imEnvBefore sDoc :=
  (C7_digest_ignores_file_changes imEnvBefore fsAfter sDoc rfl).1

/-! ## Claim C8 -/

/-- C8 counterexample: `secret.bin` exists but reading it raises; the
claim says `add_file_to_identity` must return `false` and store nothing,
but the code returns `true` and stores the `"error:..."` string produced
by the swallowed exception as the file's "hash". -/
theorem C8_counterexample :
    (add_file_to_identity imEnvDenied "secret.bin" (some "secret") sEmptyIdentity).1
      = true ∧
    ((add_file_to_identity imEnvDenied "secret.bin" (some "secret") sEmptyIdentity).2).identity_info
      = some { identity_hash := "", creation_time := "2025-01-01T00:00:00",
               system_info := [], file_hashes := [("secret", "error:Permission denied")],
               custom_data := [] } := by
  exact ⟨rfl, rfl⟩

/-- C8 (amended): `add_file_to_identity` returns `false` without throwing
when the file does not exist; when the file exists and an identity is
present it returns `true` and stores, under the alias-or-basename key, the
result of `_calculate_file_hash` — the streaming content hash when the
file can be read, but an `"error:..."` string (not a content hash) when
reading fails, the error being swallowed rather than reported as
`false`. -/
theorem C8_add_file_result (env : IMEnv) (path : String) (aliasOpt : Option String)
    (s : IMState) :
    (env.fs.fileExists path = false →
       add_file_to_identity env path aliasOpt s = (false, s)) ∧
    (∀ ii, env.fs.fileExists path = true → s.identity_info = some ii →
       (add_file_to_identity env path aliasOpt s).1 = true ∧
       ∃ ii', ((add_file_to_identity env path aliasOpt s).2).identity_info = some ii' ∧
         dictGet? ii'.file_hashes (addFileKey aliasOpt path)
           = some (calculate_file_hash env s.settings path)) ∧
    (∀ content, env.fs.read path = some content →
       calculate_file_hash env s.settings path
         = env.hash.hashBytes s.settings.hash_algorithm content) ∧
    (env.fs.read path = none →
       calculate_file_hash env s.settings path = "error:" ++ env.fs.readErrMsg path) := by
  refine ⟨?_, ?_, ?_, ?_⟩
  · intro h
    unfold add_file_to_identity
    simp [h]
  · intro ii hex hii
    unfold add_file_to_identity
    simp only [hex, Bool.not_true, Bool.false_eq_true, if_false, hii, Option.isNone_some,
      Bool.false_eq_true, if_false]
    refine ⟨trivial, ?_⟩
    exact ⟨_, rfl, dictGet?_dictSet_self ii.file_hashes _ _⟩
  · intro content hread
    unfold calculate_file_hash
    rw [hread]
  · intro hread
    unfold calculate_file_hash
    rw [hread]

/-- Witness for C8 at concrete inputs: a missing file yields `false`; a
readable file yields `true` with its streaming content hash stored. -/
theorem C8_add_file_result_witness :
    add_file_to_identity imEnvReadable "missing.txt" (some "m") sEmptyIdentity
      = (false, sEmptyIdentity) ∧
    (add_file_to_identity imEnvReadable "notes.txt" (some "notes") sEmptyIdentity).1
      = true ∧
    calculate_file_hash imEnvReadable sEmptyIdentity.settings "notes.txt"
      = "sha256:xxx" := by
  have h1 := C8_add_file_result imEnvReadable "missing.txt" (some "m") sEmptyIdentity
  have h2 := C8_add_file_result imEnvReadable "notes.txt" (some "notes") sEmptyIdentity
  refine ⟨h1.1 rfl, (h2.2.1 _ rfl rfl).1, ?_⟩
  rw [h2.2.2.1 [1, 2] rfl]
  rfl

end QRLP
